import Mathlib

/-!
Shallow embedding of the core of the `ftx` client library (REST dispatcher,
WebSocket session engine and order-book replica), together with theorems
checking the library's specification against it.

Conventions of the embedding:
* `rust_decimal::Decimal` is modelled as a mantissa/scale pair; its numeric
  value is `mantissa / 10 ^ scale`.  Arithmetic on decimals inside `quote`
  is carried out in `ℚ` (rust_decimal's `+`, `-`, `*` are exact, and every
  division reached by the claims is exactly representable).
* `BTreeMap<Decimal, Decimal>` is modelled as an association list kept in
  ascending key order, which is the map's iteration order; `iter().rev()`
  is `List.reverse`.
* Wall-clock timestamps are plain integers; the HTTP client, the TLS socket
  and the CRC32 hash itself are outside the model (all claims about
  `verify_checksum` concern the input string it hashes).
-/

namespace Ftx

/-- `rust_decimal::Decimal`: an integer mantissa scaled by a power of ten.
The numeric value is `mantissa / 10 ^ scale`. -/
structure Decimal where
  mantissa : Int
  scale : Nat
deriving DecidableEq

/-- The numeric value of a decimal, as a rational. -/
def Decimal.toRat (d : Decimal) : ℚ :=
  (d.mantissa : ℚ) / (10 : ℚ) ^ d.scale

/-- `Decimal::is_zero`. -/
def Decimal.isZero (d : Decimal) : Bool :=
  d.mantissa == 0

/-- `value.fract().is_zero()`, the `_needs_padding` test of
`Orderbook::verify_checksum`: the value is a whole number exactly when the
mantissa is divisible by `10 ^ scale` (equivalently, when its absolute
value is). -/
def Decimal.fractIsZero (d : Decimal) : Bool :=
  d.mantissa.natAbs % 10 ^ d.scale == 0

/-- A digit string left-padded with zeros to the given width. -/
def padZeros (s : String) (width : Nat) : String :=
  String.mk (List.replicate (width - s.length) '0') ++ s

/-- `format!("{}", d)` for `rust_decimal::Decimal`: the sign, the integer
part, and — when the scale is positive — a point followed by exactly
`scale` fractional digits.  rust_decimal's `Display` never uses scientific
notation and keeps the trailing zeros its scale records. -/
def Decimal.display (d : Decimal) : String :=
  let sign := if d.mantissa < 0 then "-" else ""
  let n := d.mantissa.natAbs
  if d.scale = 0 then
    sign ++ toString n
  else
    let p := 10 ^ d.scale
    sign ++ toString (n / p) ++ "." ++ padZeros (toString (n % p)) d.scale

/-- `format!("{:.1}", d)`.  `verify_checksum` applies this only under the
`_needs_padding` guard, i.e. to whole-number values, where it prints the
sign and the truncated integer part `|mantissa| / 10 ^ scale` followed by
`.0`. -/
def Decimal.fmtPad1 (d : Decimal) : String :=
  (if d.mantissa < 0 then "-" else "") ++
    toString (d.mantissa.natAbs / 10 ^ d.scale) ++ ".0"

/-- The token `verify_checksum` emits for one price or size.  The sixteen
arms of the `match` in the source apply `{:.1}` to exactly those of the four
values whose fractional part is zero and plain `Display` to the others, so
the match factors into this per-value choice. -/
def Decimal.checksumToken (d : Decimal) : String :=
  if d.fractIsZero then d.fmtPad1 else d.display

/-- `rest::Side`. -/
inductive Side where
  | Buy
  | Sell
deriving DecidableEq

/-- `ws::OrderbookAction`. -/
inductive OrderbookAction where
  | Partial
  | Update
deriving DecidableEq

/-- `ws::OrderbookData`: one order-book frame.  `checksum` is the `u32`
provided by the exchange; `time` stands for the frame timestamp. -/
structure OrderbookData where
  action : OrderbookAction
  bids : List (Decimal × Decimal)
  asks : List (Decimal × Decimal)
  checksum : Nat
  time : Int
deriving DecidableEq

/-- `ws::Orderbook`: the replica.  `bids` and `asks` model the two
`BTreeMap<Decimal, Decimal>` ladders as association lists in ascending key
order (the map's iteration order). -/
structure Orderbook where
  symbol : String
  bids : List (Decimal × Decimal)
  asks : List (Decimal × Decimal)
deriving DecidableEq

/-- `Orderbook::new`. -/
def Orderbook.new (symbol : String) : Orderbook :=
  { symbol := symbol, bids := [], asks := [] }

/-- `BTreeMap::insert` on the ascending association list.  rust_decimal's
`Ord` compares numeric values (mantissas cross-multiplied by the other
side's power of ten); inserting at an existing key keeps the stored key and
replaces the value. -/
def mapInsert : List (Decimal × Decimal) → Decimal → Decimal → List (Decimal × Decimal)
  | [], k, v => [(k, v)]
  | (k0, v0) :: rest, k, v =>
    if k.mantissa * Int.ofNat (10 ^ k0.scale) < k0.mantissa * Int.ofNat (10 ^ k.scale) then
      (k, v) :: (k0, v0) :: rest
    else if k.mantissa * Int.ofNat (10 ^ k0.scale) = k0.mantissa * Int.ofNat (10 ^ k.scale) then
      (k0, v) :: rest
    else
      (k0, v0) :: mapInsert rest k v

/-- `Orderbook::update`: `extend` both ladders with the frame's levels, then
`retain` the entries whose size is nonzero.  The frame's `action`,
`checksum` and `time` fields are not consulted. -/
def Orderbook.update (ob : Orderbook) (data : OrderbookData) : Orderbook :=
  let bids := data.bids.foldl (fun m kv => mapInsert m kv.1 kv.2) ob.bids
  let asks := data.asks.foldl (fun m kv => mapInsert m kv.1 kv.2) ob.asks
  { ob with
    bids := bids.filter fun kv => !kv.2.isZero
    asks := asks.filter fun kv => !kv.2.isZero }

/-- The two checksum tokens of one `(price, size)` level, joined by `:`. -/
def pairTokens (kv : Decimal × Decimal) : String :=
  kv.1.checksumToken ++ ":" ++ kv.2.checksumToken

/-- The four tokens `bid_price:bid_size:ask_price:ask_size` of one paired
position of the checksum input. -/
def quadTokens (b a : Decimal × Decimal) : String :=
  pairTokens b ++ ":" ++ pairTokens a

/-- The per-position strings of the checksum input:
`(0..100).zip(bids.iter().rev().zip(asks.iter()))`, each position formatted
as its four tokens.  The `zip` stops at the shorter of the two ladders. -/
def Orderbook.checksumGroups (ob : Orderbook) : List String :=
  ((List.range 100).zip (ob.bids.reverse.zip ob.asks)).map fun x =>
    quadTokens x.2.1 x.2.2

/-- The string whose CRC32 `Orderbook::verify_checksum` compares against the
frame's checksum: the position strings joined by `:`. -/
def Orderbook.checksumInput (ob : Orderbook) : String :=
  String.intercalate ":" ob.checksumGroups

/-- Modelled from the spec: the tokens of the positions at which only one
side still has an entry — that side's two tokens alone, per level. -/
def specOneSide : List (Decimal × Decimal) → List String
  | [] => []
  | kv :: rest => pairTokens kv :: specOneSide rest

/-- Modelled from the spec: the per-position strings it describes — four
tokens while both sides have entries, then the two tokens of whichever
side remains. -/
def specSidePairs : List (Decimal × Decimal) → List (Decimal × Decimal) → List String
  | [], aa => specOneSide aa
  | b :: bs, [] => pairTokens b :: specSidePairs bs []
  | b :: bs, a :: aa => quadTokens b a :: specSidePairs bs aa

/-- Modelled from the spec: the full checksum input string it describes. -/
def Orderbook.specChecksumInput (ob : Orderbook) : String :=
  String.intercalate ":" (specSidePairs (ob.bids.reverse.take 100) (ob.asks.take 100))

/-- The matching loop of `Orderbook::quote`, over the opposite-side levels
in best-first order.  While `remaining` is nonzero and sign-positive, pop
the next level (`None` aborts the whole computation via `?`); a level at
most `remaining` is consumed whole, otherwise it fills the remainder. -/
def fillLevels : List (ℚ × ℚ) → ℚ → Option (List (ℚ × ℚ))
  | [], remaining =>
    if remaining ≠ 0 ∧ 0 ≤ remaining then none else some []
  | (price, sz) :: rest, remaining =>
    if remaining ≠ 0 ∧ 0 ≤ remaining then
      if sz ≤ remaining then
        match fillLevels rest (remaining - sz) with
        | none => none
        | some fs => some ((price, sz) :: fs)
      else
        some [(price, remaining)]
    else
      some []

/-- The fold of `quote`'s step 2: `Σ price·quantity` over the fills. -/
def dotProduct (fills : List (ℚ × ℚ)) : ℚ :=
  fills.foldl (fun acc pq => acc + pq.1 * pq.2) 0

/-- The sum of the size components of a list of levels or fills. -/
def sumSizes (levels : List (ℚ × ℚ)) : ℚ :=
  (levels.map Prod.snd).sum

/-- The ladder `quote` walks: asks (ascending) for a buy,
`bids.iter().rev()` (descending) for a sell, with the decimals read as
rationals. -/
def Orderbook.ratLadder (ob : Orderbook) : Side → List (ℚ × ℚ)
  | Side.Buy => ob.asks.map fun kv => (kv.1.toRat, kv.2.toRat)
  | Side.Sell => ob.bids.reverse.map fun kv => (kv.1.toRat, kv.2.toRat)

/-- The fills accumulated by `Orderbook::quote`. -/
def Orderbook.quoteFills (ob : Orderbook) (side : Side) (quantity : ℚ) :
    Option (List (ℚ × ℚ)) :=
  fillLevels (ob.ratLadder side) quantity

/-- The numerator and divisor of `quote`'s final, unguarded division
`Some(dot_product / quantity)`: the divisor is the `quantity` argument
itself, whatever its value. -/
def Orderbook.quoteParts (ob : Orderbook) (side : Side) (quantity : ℚ) :
    Option (ℚ × ℚ) :=
  (ob.quoteFills side quantity).map fun fs => (dotProduct fs, quantity)

/-- `Orderbook::quote`. -/
def Orderbook.quote (ob : Orderbook) (side : Side) (quantity : ℚ) : Option ℚ :=
  (ob.quoteFills side quantity).map fun fs => dotProduct fs / quantity

/-- `ws::Channel`. -/
inductive Channel where
  | Orderbook (symbol : String)
  | Trades (symbol : String)
  | Ticker (symbol : String)
  | Fills
  | Orders
deriving DecidableEq, BEq

/-- `ws::Type` (the frame type tag; `Type` itself is not a usable name). -/
inductive FrameType where
  | Subscribed
  | Unsubscribed
  | Update
  | Error
  | Partial
  | Pong
  | Info
deriving DecidableEq

/-- `rest::OrderStatus`. -/
inductive OrderStatus where
  | New
  | Open
  | Closed
deriving DecidableEq

/-- `rest::OrderType`. -/
inductive OrderType where
  | Market
  | Limit
  | Stop
  | TrailingStop
  | TakeProfit
deriving DecidableEq

/-- `ws::Liquidity`. -/
inductive Liquidity where
  | Maker
  | Taker
deriving DecidableEq

/-- `rest::Trade` (the element type of a trades frame).  `time` stands for
the `DateTime<Utc>` timestamp.  The struct has no market field. -/
structure Trade where
  id : Nat
  liquidation : Bool
  price : Decimal
  side : Side
  size : Decimal
  time : Int
deriving DecidableEq

/-- `ws::Ticker`. -/
structure Ticker where
  bid : Decimal
  ask : Decimal
  bidSize : Decimal
  askSize : Decimal
  last : Decimal
  time : Int
deriving DecidableEq

/-- `ws::Fill` (field `r#type` is `fillType` here). -/
structure Fill where
  id : Nat
  market : Option String
  future : Option String
  baseCurrency : Option String
  quoteCurrency : Option String
  fillType : String
  side : Side
  price : Decimal
  size : Decimal
  orderId : Option Nat
  tradeId : Option Nat
  time : Int
  fee : Decimal
  feeRate : Decimal
  feeCurrency : String
  liquidity : Liquidity
deriving DecidableEq

/-- `rest::OrderInfo` (field `r#type` is `orderType` here). -/
structure OrderInfo where
  id : Nat
  market : String
  future : Option String
  orderType : OrderType
  side : Side
  price : Option Decimal
  size : Decimal
  reduceOnly : Option Bool
  ioc : Option Bool
  postOnly : Option Bool
  status : OrderStatus
  filledSize : Option Decimal
  remainingSize : Option Decimal
  avgFillPrice : Option Decimal
  liquidation : Option Bool
  createdAt : Int
  clientId : Option String
  retryUntilFilled : Option Bool
  triggerPrice : Option Decimal
  orderPrice : Option Decimal
  triggeredAt : Option String
  error : Option String
deriving DecidableEq

/-- `ws::ResponseData`: the payload of an inbound frame. -/
inductive ResponseData where
  | Ticker (t : Ticker)
  | Trades (trades : List Trade)
  | OrderbookData (ob : OrderbookData)
  | Fill (f : Fill)
  | Order (o : OrderInfo)
deriving DecidableEq

/-- `ws::Data`: the items handed to the consumer.  Note that `Data` carries
no market symbol of its own. -/
inductive Data where
  | Ticker (t : Ticker)
  | Trade (t : Trade)
  | OrderbookData (ob : OrderbookData)
  | Fill (f : Fill)
  | Order (o : OrderInfo)
deriving DecidableEq

/-- `ws::Response`: a parsed inbound frame (`r#type` is `rtype` here). -/
structure Response where
  market : Option String
  rtype : FrameType
  data : Option ResponseData
deriving DecidableEq

/-- `Ws::handle_response`: append the frame's contents to the buffer.  A
trades frame is demultiplexed into one buffered item per trade; every other
payload is buffered as a single item.  The frame's `market` and `r#type`
fields are not consulted. -/
def handleResponse (buf : List Data) (response : Response) : List Data :=
  match response.data with
  | none => buf
  | some (ResponseData.Trades trades) => buf ++ trades.map Data.Trade
  | some (ResponseData.OrderbookData ob) => buf ++ [Data.OrderbookData ob]
  | some (ResponseData.Fill f) => buf ++ [Data.Fill f]
  | some (ResponseData.Ticker t) => buf ++ [Data.Ticker t]
  | some (ResponseData.Order o) => buf ++ [Data.Order o]

/-- `Ws::next_response` over a finite list of parsed inbound text frames:
skip `Pong` frames, return the first other frame and the rest of the
stream; `none` when the list runs out (the real loop would keep awaiting
the socket).  The heartbeat arm of the `select!` only sends a ping and
loops, so it does not affect the returned frame. -/
def nextResponse : List Response → Option (Response × List Response)
  | [] => none
  | r :: rest =>
    if r.rtype = FrameType.Pong then nextResponse rest else some (r, rest)

/-- The consumer-visible stream produced by `Stream::poll_next` pumping an
inbound frame list to exhaustion: each frame returned by `next_response`
has its contents appended by `handle_response`.  (Stated over the frames
directly; `pumpAll_eq_nextResponse` ties it to `nextResponse`.) -/
def pumpAll : List Response → List Data
  | [] => []
  | r :: rest =>
    if r.rtype = FrameType.Pong then pumpAll rest
    else handleResponse [] r ++ pumpAll rest

/-- `ws::Error`. -/
inductive WsError where
  | NotSubscribedToThisChannel (c : Channel)
  | MissingSubscriptionConfirmation
  | SocketNotAuthenticated
  | Tungstenite
  | Serde
deriving DecidableEq

/-- The session state `Ws` (socket and ping timer are outside the model;
inbound frames are supplied as explicit lists). -/
structure WsState where
  channels : List Channel
  buf : List Data
  isAuthenticated : Bool
deriving DecidableEq

/-- The private-channel test of `Ws::subscribe`:
`channel == &Channel::Fills || channel == &Channel::Orders`. -/
def privateChannel (c : Channel) : Bool :=
  c == Channel.Fills || c == Channel.Orders

/-- The first loop of `Ws::subscribe`: for each requested channel, fail
with `SocketNotAuthenticated` if it is `Fills` or `Orders` on an
unauthenticated session, else push it onto `self.channels`.  The channels
pushed before a failing private channel stay pushed. -/
def subscribeGate (chans : List Channel) (isAuth : Bool) :
    List Channel → List Channel × Option WsError
  | [] => (chans, none)
  | c :: rest =>
    if privateChannel c && !isAuth then
      (chans, some WsError.SocketNotAuthenticated)
    else
      subscribeGate (chans ++ [c]) isAuth rest

/-- The confirmation lookahead of `subscribe_or_unsubscribe` for one
channel: read up to `fuel` (100) frames with `next_response`; a
`Subscribed` frame confirms, any other frame is buffered by
`handle_response`.  The result is the buffer, the rest of the inbound
frames, and whether the ack was seen; `none` models a read that would
block because the supplied frame list ran out. -/
def awaitAck (buf : List Data) (frames : List Response) :
    Nat → Option (List Data × List Response × Bool)
  | 0 => some (buf, frames, false)
  | fuel + 1 =>
    match nextResponse frames with
    | none => none
    | some (r, rest) =>
      if r.rtype = FrameType.Subscribed then some (buf, rest, true)
      else awaitAck (handleResponse buf r) rest fuel

/-- `subscribe_or_unsubscribe(channels, true)`: per channel, send the
subscribe message (the send itself has no modelled effect) and run the
100-frame confirmation lookahead; a missed ack aborts with
`MissingSubscriptionConfirmation`. -/
def subscribeSend (st : WsState) (frames : List Response) :
    List Channel → Option (WsState × List Response × Option WsError)
  | [] => some (st, frames, none)
  | _c :: rest =>
    match awaitAck st.buf frames 100 with
    | none => none
    | some (buf, frames2, true) =>
      subscribeSend { st with buf := buf } frames2 rest
    | some (buf, frames2, false) =>
      some ({ st with buf := buf }, frames2,
        some WsError.MissingSubscriptionConfirmation)

/-- `Ws::subscribe`: run the auth-gating push loop over all requested
channels, then the send-and-confirm loop.  Errors leave whatever state the
loops had already produced. -/
def Ws.subscribe (st : WsState) (requested : List Channel)
    (frames : List Response) : Option (WsState × List Response × Option WsError) :=
  match subscribeGate st.channels st.isAuthenticated requested with
  | (chans, some e) => some ({ st with channels := chans }, frames, some e)
  | (chans, none) => subscribeSend { st with channels := chans } frames requested

/-- The HTTP verbs the request catalog uses. -/
inductive HttpMethod where
  | GET
  | POST
  | DELETE
deriving DecidableEq

/-- `Display` of `http::Method`, as used in the signing payload. -/
def methodStr : HttpMethod → String
  | HttpMethod.GET => "GET"
  | HttpMethod.POST => "POST"
  | HttpMethod.DELETE => "DELETE"

/-- One typed request, as `Rest::request::<R>` sees it: the associated
constants of the `Request` trait, the instance path `req.path()`, and
`serialized`, the result of `to_string(&req)` (serde_json) on the request
value. -/
structure RequestSpec where
  METHOD : HttpMethod
  AUTH : Bool
  HAS_PAYLOAD : Bool
  path : String
  serialized : String
deriving DecidableEq

/-- `rest::Rest`'s configuration: optional secret and subaccount, and what
the `Endpoint` derives (the pooled HTTP client is outside the model). -/
structure RestConfig where
  secret : Option String
  subaccount : Option String
  headerPrefix : String
  restBase : String
deriving DecidableEq

/-- `rest::Error`. -/
inductive RestError where
  | Api (msg : String)
  | PlacingLimitOrderRequiresPrice
  | NoSecretConfigured
  | SerdeQs
  | Reqwest
  | Json
deriving DecidableEq

/-- The HTTP call `Rest::request` hands to the client: the URL built from
the endpoint base and `req.path()`, the `params` string passed separately
to `.query(&params)`, the body, whether a `<prefix>-SIGN` header was
attached, the payload that was signed, and the key material handed to the
HMAC (`secretUsed`). -/
structure HttpCall where
  method : HttpMethod
  url : String
  queryParams : String
  body : String
  signed : Bool
  signPayload : Option String
  secretUsed : Option String
deriving DecidableEq

/-- `Rest::request` up to the `.send()` call.  `(params, body)` comes from
the `(R::METHOD, R::HAS_PAYLOAD)` match; when `R::AUTH` the payload
`format!("{}{}/api{}{}", timestamp, R::METHOD, req.path(), body)` is signed
— note it is built from the path and body only, never from `params`.  The
function is total: no branch of the source's `request` returns
`NoSecretConfigured` (the variant is constructed nowhere in the crate), and
the signing step consumes `self.secret` as it stands — the source's
`self.secret.as_bytes()` on the `Option<String>` field does not even
type-check, modelled here as passing the optional secret through. -/
def Rest.request (cfg : RestConfig) (r : RequestSpec) (timestamp : Nat) : HttpCall :=
  let url := cfg.restBase ++ r.path
  let pb : String × String :=
    match r.METHOD, r.HAS_PAYLOAD with
    | HttpMethod.GET, true => (r.serialized, "")
    | _, true => ("", r.serialized)
    | _, false => ("", "")
  { method := r.METHOD
    url := url
    queryParams := pb.1
    body := pb.2
    signed := r.AUTH
    signPayload :=
      if r.AUTH then
        some (toString timestamp ++ methodStr r.METHOD ++ "/api" ++ r.path ++ pb.2)
      else none
    secretUsed := if r.AUTH then cfg.secret else none }

/- Concrete fixtures used by the claims. -/

/-- The book of the spec's checksum-formatting scenario: bids `[(0.1, 5)]`,
asks `[(0.000075, 2)]`. -/
def checksumScenarioBook : Orderbook :=
  { symbol := "BTC-PERP"
    bids := [(⟨1, 1⟩, ⟨5, 0⟩)]
    asks := [(⟨75, 6⟩, ⟨2, 0⟩)] }

/-- A book whose sides have different depths: two bid levels, one ask
level (all whole numbers). -/
def unevenBook : Orderbook :=
  { symbol := "BTC-PERP"
    bids := [(⟨1, 0⟩, ⟨1, 0⟩), (⟨2, 0⟩, ⟨1, 0⟩)]
    asks := [(⟨3, 0⟩, ⟨1, 0⟩)] }

/-- The book of the spec's quote scenario: bids `{4:5, 3:10, 2:15}`, asks
`{5:20, 6:30, 7:40}`. -/
def quoteScenarioBook : Orderbook :=
  { symbol := "BTC-PERP"
    bids := [(⟨2, 0⟩, ⟨15, 0⟩), (⟨3, 0⟩, ⟨10, 0⟩), (⟨4, 0⟩, ⟨5, 0⟩)]
    asks := [(⟨5, 0⟩, ⟨20, 0⟩), (⟨6, 0⟩, ⟨30, 0⟩), (⟨7, 0⟩, ⟨40, 0⟩)] }

/-- An `Update` frame delivering one bid level, sent before any `Partial`. -/
def updateBeforePartialFrame : OrderbookData :=
  { action := OrderbookAction.Update
    bids := [(⟨1, 0⟩, ⟨2, 0⟩)]
    asks := []
    checksum := 1
    time := 0 }

/-- An unauthenticated, freshly connected session. -/
def anonSession : WsState :=
  { channels := [], buf := [], isAuthenticated := false }

/-- A GET request with `AUTH = true` and a payload serialized from the
field `market = "BTC-PERP"` (the shape of `GetOpenOrdersRequest` were its
payload flag set; serde_json renders it as a JSON object). -/
def openOrdersGet : RequestSpec :=
  { METHOD := HttpMethod.GET
    AUTH := true
    HAS_PAYLOAD := true
    path := "/orders"
    serialized := "\x7b\"market\":\"BTC-PERP\"\x7d" }

/-- `GetAccountRequest`: GET `/account`, `AUTH = true`, no payload. -/
def getAccountReq : RequestSpec :=
  { METHOD := HttpMethod.GET
    AUTH := true
    HAS_PAYLOAD := false
    path := "/account"
    serialized := "\x7b\x7d" }

/-- `Rest::new(Options::default())` against the Com endpoint with no
credentials, as `init_unauthenticated_api` builds it. -/
def cfgNoSecret : RestConfig :=
  { secret := none
    subaccount := none
    headerPrefix := "FTX"
    restBase := "https://ftx.com/api" }

/- Helper lemmas. -/

/-- Zipping the index list `range' k n` with `l` and formatting only the
data component truncates `l` to its first `n` elements. -/
theorem zip_range'_quad (n k : Nat)
    (l : List ((Decimal × Decimal) × (Decimal × Decimal))) :
    ((List.range' k n).zip l).map (fun x => quadTokens x.2.1 x.2.2) =
      (l.take n).map (fun x => quadTokens x.1 x.2) := by
  induction n generalizing k l with
  | zero => simp
  | succ n ih =>
    cases l with
    | nil => simp
    | cons a l =>
      rw [List.range'_succ]
      simpa using ih (k + 1) l

/-- The checksum's position list is the positional pairing of the two
ladders truncated to 100 entries. -/
theorem checksumGroups_eq_take (ob : Orderbook) :
    ob.checksumGroups =
      ((ob.bids.reverse.zip ob.asks).take 100).map fun x => quadTokens x.1 x.2 := by
  unfold Orderbook.checksumGroups
  rw [List.range_eq_range']
  exact zip_range'_quad 100 0 _

/- Claim theorems. -/

/-- C1 counterexample: on the book with bids `[(0.1, 5)]` and asks
`[(0.000075, 2)]` the string hashed by `verify_checksum` is
`0.1:5.0:0.000075:2.0` — the sub-`0.0001` price is rendered by
rust_decimal's plain `Display`, not in the scientific `7.5e-05` form the
claim states. -/
theorem C1_counterexample :
    checksumScenarioBook.checksumInput = "0.1:5.0:0.000075:2.0" ∧
    "0.1:5.0:0.000075:2.0" ≠ "0.1:5.0:7.5e-05:2.0" := by
  constructor
  · rfl
  · decide

/-- C1 amended: whole-number prices and sizes are emitted with a trailing
`.0`, but values smaller than `0.0001` are emitted in plain decimal form
(`0.000075`, never scientific notation), so the checksum input for the
scenario book is `0.1:5.0:0.000075:2.0`. -/
theorem C1_amended_checksum_tokens :
    checksumScenarioBook.checksumInput = "0.1:5.0:0.000075:2.0" ∧
    Decimal.checksumToken ⟨5, 0⟩ = "5.0" ∧
    Decimal.checksumToken ⟨2, 0⟩ = "2.0" ∧
    Decimal.checksumToken ⟨1, 1⟩ = "0.1" ∧
    Decimal.checksumToken ⟨75, 6⟩ = "0.000075" := by
  refine ⟨rfl, rfl, rfl, rfl, rfl⟩

/-- C5 counterexample: applying an `Update` frame to a book that has seen
no `Partial` does not fail and does not leave the ladders unchanged — the
frame's levels are inserted (and `ws::Error` has no `MissingPartial`
variant at all). -/
theorem C5_counterexample :
    ((Orderbook.new "BTC-PERP").update updateBeforePartialFrame).bids =
      [(⟨1, 0⟩, ⟨2, 0⟩)] ∧
    ((Orderbook.new "BTC-PERP").update updateBeforePartialFrame).bids ≠
      (Orderbook.new "BTC-PERP").bids := by
  constructor
  · rfl
  · decide

/-- C5 amended: `Orderbook::update` never inspects the frame's `action`
(nor its checksum or timestamp): an `Update` on an uninitialized book is
applied in place exactly like any other frame, and no `MissingPartial`
error exists. -/
theorem C5_amended_update_ignores_action :
    (∀ (ob : Orderbook) (a1 a2 : OrderbookAction)
       (bids asks : List (Decimal × Decimal)) (c1 c2 : Nat) (t1 t2 : Int),
        ob.update ⟨a1, bids, asks, c1, t1⟩ = ob.update ⟨a2, bids, asks, c2, t2⟩) ∧
    ((Orderbook.new "BTC-PERP").update updateBeforePartialFrame).bids =
      [(⟨1, 0⟩, ⟨2, 0⟩)] := by
  exact ⟨fun ob a1 a2 bids asks c1 c2 t1 t2 => rfl, rfl⟩

/-- C6 counterexample: on a book with two bid levels and one ask level the
checksum input stops at the paired position, omitting the populated second
bid level, instead of emitting that side's tokens alone as the claim (and
the spec's own algorithm, `specChecksumInput`) requires. -/
theorem C6_counterexample :
    unevenBook.checksumInput = "2.0:1.0:3.0:1.0" ∧
    unevenBook.specChecksumInput = "2.0:1.0:3.0:1.0:1.0:1.0" ∧
    unevenBook.checksumInput ≠ unevenBook.specChecksumInput := by
  refine ⟨rfl, rfl, by decide⟩

/-- C6 amended: the checksum input contains exactly
`min 100 (min #bids #asks)` positions — the positional pairing stops at
the shorter ladder, so the longer side's remaining levels (one-sided
positions) are omitted rather than emitted alone. -/
theorem C6_amended_checksum_truncates :
    (∀ ob : Orderbook,
        ob.checksumGroups =
          ((ob.bids.reverse.zip ob.asks).take 100).map fun x => quadTokens x.1 x.2) ∧
    (∀ ob : Orderbook,
        ob.checksumGroups.length = min 100 (min ob.bids.length ob.asks.length)) := by
  refine ⟨checksumGroups_eq_take, fun ob => ?_⟩
  rw [checksumGroups_eq_take]
  simp

/-- C2: for a GET request the HMAC signing payload is built from the
instance path and the (empty) body only — it is independent of the
serialized query params, which travel separately to the HTTP client's
query mechanism.  At the concrete authenticated GET request with
`market = "BTC-PERP"` the signed path is `/api/orders` with no query while
the wire call carries the serialized params: the signed path and the
on-wire path differ. -/
theorem C2_sign_payload_omits_query :
    (∀ (cfg : RestConfig) (r : RequestSpec) (ts : Nat) (s1 s2 : String),
        r.METHOD = HttpMethod.GET →
        (Rest.request cfg { r with serialized := s1 } ts).signPayload =
          (Rest.request cfg { r with serialized := s2 } ts).signPayload) ∧
    (∀ (cfg : RestConfig) (r : RequestSpec) (ts : Nat),
        r.METHOD = HttpMethod.GET → r.HAS_PAYLOAD = true →
        (Rest.request cfg r ts).queryParams = r.serialized ∧
          (Rest.request cfg r ts).body = "") ∧
    Rest.request cfgNoSecret openOrdersGet 1000 =
      { method := HttpMethod.GET
        url := "https://ftx.com/api/orders"
        queryParams := "\x7b\"market\":\"BTC-PERP\"\x7d"
        body := ""
        signed := true
        signPayload := some "1000GET/api/orders"
        secretUsed := none } := by
  refine ⟨?_, ?_, ?_⟩
  · intro cfg r ts s1 s2 h
    cases hp : r.HAS_PAYLOAD <;> simp [Rest.request, h, hp]
  · intro cfg r ts h hp
    simp [Rest.request, h, hp]
  · rfl

/-- C3: `Rest::request` has no missing-secret branch: it builds and sends
the HTTP call for every configuration, attaching a signature whenever
`R::AUTH` holds and feeding whatever optional secret the config holds to
the HMAC.  In particular the authenticated `GetAccountRequest` dispatched
with no secret configured still produces the signed call — the dispatcher
never returns `NoSecretConfigured` (the variant is constructed nowhere in
the crate). -/
theorem C3_no_secret_still_sends :
    (∀ (cfg : RestConfig) (r : RequestSpec) (ts : Nat),
        (Rest.request cfg r ts).signed = r.AUTH ∧
          (Rest.request cfg r ts).secretUsed =
            (if r.AUTH then cfg.secret else none)) ∧
    Rest.request cfgNoSecret getAccountReq 1000 =
      { method := HttpMethod.GET
        url := "https://ftx.com/api/account"
        queryParams := ""
        body := ""
        signed := true
        signPayload := some "1000GET/api/account"
        secretUsed := none } := by
  exact ⟨fun cfg r ts => ⟨rfl, rfl⟩, rfl⟩

/-- C7: a trades frame with `N` trades appends exactly the `N` single-trade
items, in frame order — and the appended items are independent of the
frame's `market` (and `type`) field, so no buffered item can carry the
originating market symbol (the `Data` variants have no market component). -/
theorem C7_trades_demux_drops_market :
    (∀ (buf : List Data) (market : Option String) (ty : FrameType)
        (trades : List Trade),
        handleResponse buf ⟨market, ty, some (ResponseData.Trades trades)⟩ =
          buf ++ trades.map Data.Trade) ∧
    (∀ (buf : List Data) (m1 m2 : Option String) (ty1 ty2 : FrameType)
        (d : Option ResponseData),
        handleResponse buf ⟨m1, ty1, d⟩ = handleResponse buf ⟨m2, ty2, d⟩) := by
  refine ⟨fun buf market ty trades => rfl, fun buf m1 m2 ty1 ty2 d => ?_⟩
  cases d with
  | none => rfl
  | some rd => cases rd <;> rfl

/-- C10: `quote` is exactly `quoteParts` followed by the division of its
two components; for positive quantities the divisor of that division is
the quantity itself, hence nonzero, while `quote(side, 0)` reaches the
division with numerator and divisor both zero for every book. -/
theorem C10_quote_division_unguarded :
    (∀ (ob : Orderbook) (side : Side) (q : ℚ),
        ob.quote side q = (ob.quoteParts side q).map fun pr => pr.1 / pr.2) ∧
    (∀ (ob : Orderbook) (side : Side) (q : ℚ) (pr : ℚ × ℚ),
        0 < q → ob.quoteParts side q = some pr → pr.2 = q ∧ pr.2 ≠ 0) ∧
    (∀ (ob : Orderbook) (side : Side), ob.quoteParts side 0 = some (0, 0)) := by
  refine ⟨?_, ?_, ?_⟩
  · intro ob side q
    unfold Orderbook.quote Orderbook.quoteParts
    cases ob.quoteFills side q <;> rfl
  · intro ob side q pr hq h
    unfold Orderbook.quoteParts at h
    cases hf : ob.quoteFills side q with
    | none => rw [hf] at h; simp at h
    | some fs =>
      rw [hf] at h
      simp only [Option.map_some', Option.some.injEq] at h
      rw [← h]
      exact ⟨rfl, hq.ne'⟩
  · intro ob side
    have h0 : fillLevels (ob.ratLadder side) 0 = some [] := by
      cases ob.ratLadder side with
      | nil => simp [fillLevels]
      | cons a l => obtain ⟨p, s⟩ := a; simp [fillLevels]
    unfold Orderbook.quoteParts Orderbook.quoteFills
    rw [h0]
    rfl

theorem sumSizes_cons (pq : ℚ × ℚ) (l : List (ℚ × ℚ)) :
    sumSizes (pq :: l) = pq.2 + sumSizes l := by
  simp [sumSizes]

theorem sumSizes_nonneg {l : List (ℚ × ℚ)} (h : ∀ pq ∈ l, 0 ≤ pq.2) :
    0 ≤ sumSizes l := by
  refine List.sum_nonneg ?_
  intro x hx
  obtain ⟨pq, hpq, rfl⟩ := List.mem_map.mp hx
  exact h pq hpq

theorem fillLevels_zero (levels : List (ℚ × ℚ)) :
    fillLevels levels 0 = some [] := by
  cases levels with
  | nil => simp [fillLevels]
  | cons a l => obtain ⟨p, s⟩ := a; simp [fillLevels]

theorem fillLevels_nil_pos {q : ℚ} (hq : 0 < q) : fillLevels [] q = none := by
  simp only [fillLevels]
  rw [if_pos ⟨hq.ne', hq.le⟩]

theorem fillLevels_cons_pos {q : ℚ} (hq : 0 < q) (p s : ℚ)
    (rest : List (ℚ × ℚ)) :
    fillLevels ((p, s) :: rest) q =
      if s ≤ q then
        match fillLevels rest (q - s) with
        | none => none
        | some fs => some ((p, s) :: fs)
      else some [(p, q)] := by
  simp only [fillLevels]
  rw [if_pos ⟨hq.ne', hq.le⟩]

/-- The matching loop aborts (returning `None` through `?`) exactly when
the walked side holds strictly less total size than the requested
quantity. -/
theorem fillLevels_none_iff :
    ∀ (levels : List (ℚ × ℚ)) (q : ℚ), 0 < q → (∀ pq ∈ levels, 0 ≤ pq.2) →
      (fillLevels levels q = none ↔ sumSizes levels < q) := by
  intro levels
  induction levels with
  | nil =>
    intro q hq _
    simp [fillLevels_nil_pos hq, sumSizes, hq]
  | cons head rest ih =>
    intro q hq hnn
    obtain ⟨p, s⟩ := head
    have hs : (0 : ℚ) ≤ s := hnn (p, s) (List.mem_cons_self _ _)
    have hrest : ∀ x ∈ rest, (0 : ℚ) ≤ x.2 :=
      fun x hx => hnn x (List.mem_cons_of_mem _ hx)
    have hsumr : 0 ≤ sumSizes rest := sumSizes_nonneg hrest
    rw [fillLevels_cons_pos hq, sumSizes_cons]
    by_cases hsq : s ≤ q
    · rw [if_pos hsq]
      rcases eq_or_lt_of_le hsq with heq | hlt
      · have h0 : fillLevels rest (q - s) = some [] := by
          rw [heq, sub_self]; exact fillLevels_zero rest
        rw [h0]
        simp only [false_iff, not_lt]
        constructor
        · intro h; exact absurd h (by simp)
        · intro h; exact absurd h (by simp; linarith)
      · have hq' : 0 < q - s := by linarith
        have ihr := ih (q - s) hq' hrest
        cases hfr : fillLevels rest (q - s) with
        | none =>
          rw [hfr] at ihr
          simp only [true_iff] at ihr
          constructor
          · intro _
            show s + sumSizes rest < q
            linarith
          · intro _
            rfl
        | some fs =>
          rw [hfr] at ihr
          simp only [reduceCtorEq, false_iff, not_lt] at ihr
          simp only [reduceCtorEq, false_iff, not_lt]
          linarith
    · rw [if_neg hsq]
      push_neg at hsq
      simp only [reduceCtorEq, false_iff, not_lt]
      linarith

/-- When the loop succeeds, the accumulated fill sizes add up to exactly
the requested quantity. -/
theorem fillLevels_sum :
    ∀ (levels : List (ℚ × ℚ)) (q : ℚ) (fs : List (ℚ × ℚ)), 0 ≤ q →
      fillLevels levels q = some fs → sumSizes fs = q := by
  intro levels
  induction levels with
  | nil =>
    intro q fs hq h
    rcases eq_or_lt_of_le hq with heq | hlt
    · rw [← heq, fillLevels_zero] at h
      obtain rfl : ([] : List (ℚ × ℚ)) = fs := by simpa using h
      simp [sumSizes, ← heq]
    · rw [fillLevels_nil_pos hlt] at h
      exact absurd h (by simp)
  | cons head rest ih =>
    intro q fs hq h
    obtain ⟨p, s⟩ := head
    rcases eq_or_lt_of_le hq with heq | hlt
    · rw [← heq, fillLevels_zero] at h
      obtain rfl : ([] : List (ℚ × ℚ)) = fs := by simpa using h
      simp [sumSizes, ← heq]
    · rw [fillLevels_cons_pos hlt] at h
      by_cases hsq : s ≤ q
      · rw [if_pos hsq] at h
        cases hfr : fillLevels rest (q - s) with
        | none => rw [hfr] at h; exact absurd h (by simp)
        | some fs' =>
          rw [hfr] at h
          obtain rfl : (p, s) :: fs' = fs := by simpa using h
          have := ih (q - s) fs' (by linarith) hfr
          rw [sumSizes_cons]
          simp only []
          linarith
      · rw [if_neg hsq] at h
        obtain rfl : [(p, q)] = fs := by simpa using h
        simp [sumSizes]

/-- C8: on the scenario book `quote(Buy, ·)` returns the spec's four
values, and in general (for any book whose walked ladder has nonnegative
sizes and any positive quantity) `quote` returns no quote exactly when the
opposite side's total size is below the quantity, and otherwise returns
`dotProduct fills / Σ fill sizes` with the fill sizes summing to the
quantity — the size-weighted average fill price of the greedy walk. -/
theorem C8_quote_walk :
    quoteScenarioBook.quote Side.Buy 25 = some (26 / 5) ∧
    quoteScenarioBook.quote Side.Buy 50 = some (28 / 5) ∧
    quoteScenarioBook.quote Side.Buy 70 = some 6 ∧
    quoteScenarioBook.quote Side.Buy 100 = none ∧
    (∀ (ob : Orderbook) (side : Side) (q : ℚ), 0 < q →
      (∀ pq ∈ ob.ratLadder side, 0 ≤ pq.2) →
      ((ob.quote side q = none ↔ sumSizes (ob.ratLadder side) < q) ∧
       (∀ r, ob.quote side q = some r →
          ∃ fs, ob.quoteFills side q = some fs ∧ sumSizes fs = q ∧
            r = dotProduct fs / sumSizes fs))) := by
  refine ⟨?_, ?_, ?_, ?_, ?_⟩
  · norm_num [Orderbook.quote, Orderbook.quoteFills, Orderbook.ratLadder,
      quoteScenarioBook, Decimal.toRat, fillLevels, dotProduct]
  · norm_num [Orderbook.quote, Orderbook.quoteFills, Orderbook.ratLadder,
      quoteScenarioBook, Decimal.toRat, fillLevels, dotProduct]
  · norm_num [Orderbook.quote, Orderbook.quoteFills, Orderbook.ratLadder,
      quoteScenarioBook, Decimal.toRat, fillLevels, dotProduct]
  · norm_num [Orderbook.quote, Orderbook.quoteFills, Orderbook.ratLadder,
      quoteScenarioBook, Decimal.toRat, fillLevels, dotProduct]
  · intro ob side q hq hnn
    constructor
    · unfold Orderbook.quote Orderbook.quoteFills
      rw [Option.map_eq_none']
      exact fillLevels_none_iff (ob.ratLadder side) q hq hnn
    · intro r hr
      unfold Orderbook.quote at hr
      cases hf : ob.quoteFills side q with
      | none => rw [hf] at hr; exact absurd hr (by simp)
      | some fs =>
        rw [hf] at hr
        simp only [Option.map_some', Option.some.injEq] at hr
        have hsum : sumSizes fs = q :=
          fillLevels_sum (ob.ratLadder side) q fs hq.le hf
        exact ⟨fs, rfl, hsum, by rw [hsum, ← hr]⟩

theorem nextResponse_not_pong :
    ∀ (msgs : List Response) (r : Response) (rest : List Response),
      nextResponse msgs = some (r, rest) → r.rtype ≠ FrameType.Pong := by
  intro msgs
  induction msgs with
  | nil => intro r rest h; exact absurd h (by simp [nextResponse])
  | cons a tl ih =>
    intro r rest h
    by_cases hp : a.rtype = FrameType.Pong
    · rw [nextResponse, if_pos hp] at h
      exact ih r rest h
    · rw [nextResponse, if_neg hp] at h
      obtain ⟨rfl, rfl⟩ : a = r ∧ tl = rest := by simpa using h
      exact hp

theorem pumpAll_eq_nextResponse :
    ∀ msgs : List Response,
      pumpAll msgs =
        match nextResponse msgs with
        | none => []
        | some (r, rest) => handleResponse [] r ++ pumpAll rest := by
  intro msgs
  induction msgs with
  | nil => rfl
  | cons a tl ih =>
    by_cases hp : a.rtype = FrameType.Pong
    · rw [pumpAll, if_pos hp, nextResponse, if_pos hp]
      exact ih
    · rw [pumpAll, if_neg hp, nextResponse, if_neg hp]

theorem pumpAll_filter_pong :
    ∀ msgs : List Response,
      pumpAll msgs =
        pumpAll (msgs.filter fun m => decide (m.rtype ≠ FrameType.Pong)) := by
  intro msgs
  induction msgs with
  | nil => rfl
  | cons a tl ih =>
    by_cases hp : a.rtype = FrameType.Pong
    · rw [pumpAll, if_pos hp, List.filter_cons]
      simp only [hp, decide_not]
      simpa using ih
    · rw [pumpAll, if_neg hp, List.filter_cons]
      have hd : decide (a.rtype ≠ FrameType.Pong) = true := by
        simpa using hp
      rw [hd]
      simp only [if_true]
      rw [pumpAll, if_neg hp, ih]

/-- C9: `next_response` never returns a `Pong` frame; the consumer-visible
stream obtained by pumping any inbound frame list is exactly the
`next_response`-driven composition with `handle_response`, and it is
unchanged when all `Pong` frames are deleted from the inbound list — a
`Pong` contributes nothing to the buffer and is never delivered. -/
theorem C9_pong_never_delivered :
    (∀ (msgs : List Response) (r : Response) (rest : List Response),
        nextResponse msgs = some (r, rest) → r.rtype ≠ FrameType.Pong) ∧
    (∀ msgs : List Response,
        pumpAll msgs =
          match nextResponse msgs with
          | none => []
          | some (r, rest) => handleResponse [] r ++ pumpAll rest) ∧
    (∀ msgs : List Response,
        pumpAll msgs =
          pumpAll (msgs.filter fun m => decide (m.rtype ≠ FrameType.Pong))) :=
  ⟨nextResponse_not_pong, pumpAll_eq_nextResponse, pumpAll_filter_pong⟩

theorem takeWhile_of_all {α : Type _} {p : α → Bool} :
    ∀ l : List α, l.all p = true → l.takeWhile p = l := by
  intro l
  induction l with
  | nil => intro _; rfl
  | cons a tl ih =>
    intro h
    rw [List.all_cons, Bool.and_eq_true] at h
    rw [List.takeWhile_cons, if_pos h.1, ih h.2]

/-- The auth-gating loop in closed form: it pushes the longest prefix of
channels that pass the gate, and errors exactly when some requested
channel fails it. -/
theorem subscribeGate_spec :
    ∀ (reqs chans : List Channel) (isAuth : Bool),
      subscribeGate chans isAuth reqs =
        (chans ++ reqs.takeWhile fun c => !(privateChannel c && !isAuth),
          if reqs.all (fun c => !(privateChannel c && !isAuth)) then none
          else some WsError.SocketNotAuthenticated) := by
  intro reqs
  induction reqs with
  | nil => intro chans isAuth; simp [subscribeGate]
  | cons c tl ih =>
    intro chans isAuth
    by_cases hc : (privateChannel c && !isAuth) = true
    · rw [subscribeGate, if_pos hc]
      have hp : (!(privateChannel c && !isAuth)) = false := by rw [hc]; rfl
      rw [List.takeWhile_cons, List.all_cons]
      simp [hp]
    · have hc' : (privateChannel c && !isAuth) = false := by
        simpa using hc
      have hp : (!(privateChannel c && !isAuth)) = true := by rw [hc']; rfl
      rw [subscribeGate, if_neg hc, ih (chans ++ [c]) isAuth]
      rw [List.takeWhile_cons, List.all_cons]
      refine Prod.ext ?_ ?_
      · show chans ++ [c] ++ _ = chans ++ _
        rw [hp]
        simp
      · show _ = (if (!(privateChannel c && !isAuth) && _) = true then _ else _)
        rw [hp, Bool.true_and]

theorem subscribeGate_none_channels
    (reqs chans : List Channel) (isAuth : Bool) (chans' : List Channel)
    (h : subscribeGate chans isAuth reqs = (chans', none)) :
    chans' = chans ++ reqs := by
  rw [subscribeGate_spec] at h
  simp only [Prod.mk.injEq] at h
  obtain ⟨h1, h2⟩ := h
  by_cases hall : reqs.all (fun c => !(privateChannel c && !isAuth)) = true
  · rw [← h1, takeWhile_of_all reqs hall]
  · rw [if_neg hall] at h2
    exact absurd h2 (by simp)

/-- The send-and-confirm loop never touches `self.channels`. -/
theorem subscribeSend_channels :
    ∀ (reqs : List Channel) (st : WsState) (frames : List Response)
      (res : WsState × List Response × Option WsError),
      subscribeSend st frames reqs = some res → res.1.channels = st.channels := by
  intro reqs
  induction reqs with
  | nil =>
    intro st frames res h
    obtain rfl : (st, frames, none) = res := by simpa [subscribeSend] using h
    rfl
  | cons c tl ih =>
    intro st frames res h
    rw [subscribeSend] at h
    cases ha : awaitAck st.buf frames 100 with
    | none => rw [ha] at h; exact absurd h (by simp)
    | some t =>
      obtain ⟨buf, frames2, ok⟩ := t
      rw [ha] at h
      cases ok with
      | false =>
        obtain rfl :
            ({ st with buf := buf }, frames2,
              some WsError.MissingSubscriptionConfirmation) = res := by
          simpa using h
        rfl
      | true => exact ih { st with buf := buf } frames2 res h

/-- C4 counterexample: subscribing to the mixed set
`[Trades "BTC-PERP", Fills]` on an anonymous session returns
`SocketNotAuthenticated`, yet the public channel preceding the private one
has already been pushed — the set of active channels is not left
unchanged. -/
theorem C4_counterexample :
    Ws.subscribe anonSession [Channel.Trades "BTC-PERP", Channel.Fills] [] =
      some ({ channels := [Channel.Trades "BTC-PERP"], buf := [],
              isAuthenticated := false }, [],
            some WsError.SocketNotAuthenticated) ∧
    ({ channels := [Channel.Trades "BTC-PERP"], buf := [],
       isAuthenticated := false } : WsState).channels ≠ anonSession.channels := by
  constructor
  · rfl
  · simp [anonSession]

/-- C4 amended: `subscribe` pushes channels before sending and before any
ack.  On an unauthenticated session with a private channel somewhere in
the request, it fails with `SocketNotAuthenticated` after having pushed
every requested channel preceding the first private one (so the state is
unchanged only when that prefix is empty); and whenever it fails with
`MissingSubscriptionConfirmation`, every requested channel has already
been pushed. -/
theorem C4_amended_subscribe_partial_state :
    (∀ (st : WsState) (reqs : List Channel) (frames : List Response),
        st.isAuthenticated = false →
        (∃ c ∈ reqs, privateChannel c = true) →
        Ws.subscribe st reqs frames =
          some ({ st with channels :=
              st.channels ++ reqs.takeWhile fun c => !privateChannel c },
            frames, some WsError.SocketNotAuthenticated)) ∧
    (∀ (st : WsState) (reqs : List Channel) (frames : List Response)
        (res : WsState × List Response × Option WsError),
        Ws.subscribe st reqs frames = some res →
        res.2.2 = some WsError.MissingSubscriptionConfirmation →
        res.1.channels = st.channels ++ reqs) := by
  constructor
  · intro st reqs frames hauth hex
    unfold Ws.subscribe
    rw [hauth, subscribeGate_spec]
    have hall : reqs.all (fun c => !(privateChannel c && !false)) = false := by
      obtain ⟨c, hc, hpriv⟩ := hex
      simp only [Bool.not_false, Bool.and_true]
      rw [List.all_eq_false]
      exact ⟨c, hc, by simp [hpriv]⟩
    rw [hall]
    simp only [Bool.not_false, Bool.and_true, Bool.false_eq_true, if_false]
  · intro st reqs frames res hsub herr
    unfold Ws.subscribe at hsub
    rcases hg : subscribeGate st.channels st.isAuthenticated reqs with ⟨chans, e⟩
    rw [hg] at hsub
    cases e with
    | some err =>
      obtain rfl : ({ st with channels := chans }, frames, some err) = res := by
        simpa using hsub
      have he : err = WsError.MissingSubscriptionConfirmation := by
        simpa using herr
      rw [subscribeGate_spec] at hg
      simp only [Prod.mk.injEq] at hg
      obtain ⟨_, h2⟩ := hg
      by_cases hall : reqs.all (fun c => !(privateChannel c && !st.isAuthenticated)) = true
      · rw [if_pos hall] at h2
        exact absurd h2 (by simp)
      · rw [if_neg hall] at h2
        rw [he] at h2
        exact absurd h2 (by simp)
    | none =>
      have hch : chans = st.channels ++ reqs :=
        subscribeGate_none_channels reqs st.channels st.isAuthenticated chans hg
      have hres := subscribeSend_channels reqs { st with channels := chans } frames res hsub
      rw [hres, ← hch]

end Ftx
